import Mathlib

/-!
# Verification of the vecmath library core

Shallow embedding of the "vecmath" 3D vector library: the `Vector3` /
`Matrix3` value types, their arithmetic operators, and the
circle-from-three-points solver `circle3pts`.

The C++ scalar type (`float` / `double`) is modelled by `ℝ` with exact
arithmetic; `std::sqrt`, `std::cos`, `std::sin` become `Real.sqrt`,
`Real.cos`, `Real.sin`.  C++ exceptions (`degenerate_error`,
`index_error`) become an `Except VMError` result; real division is
Lean's total division (division by zero yields `0` where IEEE floats
would produce Inf/NaN — in either semantics the quotient is not a
meaningful geometric result).
-/

namespace vecmath

noncomputable section

open scoped Classical

/-- Error kinds of the library: `degenerate` models the C++
`degenerate_error` exception (thrown by computations that detect a
calculation with no solution) and `index` models `index_error`
(thrown for invalid matrix indices).  The C++ exceptions carry a
message string, irrelevant to control flow, which is dropped here. -/
inductive VMError where
  | degenerate : VMError
  | index : VMError
deriving DecidableEq

/-- The tolerance used throughout the library: both `fpequal`'s default
`EPS` argument and `Vector3::EPS` are `1.0e-6`. -/
def EPS : ℝ := 1e-6

/-- `fpequal()` determines if two scalar values are close enough to be
considered equal: `|a - b| < EPS`.  All call sites in the library use
the default epsilon `1.0e-6`, embedded here as the constant `EPS`. -/
def fpequal (a b : ℝ) : Prop := |a - b| < EPS

/-- The 4-component storage of `Vector3` / `Point3` (fields `m_v[0..3]`,
exposed through the getters `X() Y() Z() W()`). -/
@[ext]
structure Vector3 where
  x : ℝ
  y : ℝ
  z : ℝ
  w : ℝ

namespace Vector3

/-- The default constructor `Vector3()`: components `{0, 0, 0, 1}`. -/
def mk0 : Vector3 := ⟨0, 0, 0, 1⟩

/-- The constructor `Vector3(x, y, z)`: components `{x, y, z, 1}`. -/
def mk3 (x y z : ℝ) : Vector3 := ⟨x, y, z, 1⟩

/-- The constructor `Vector3(x, y)` — the three-argument constructor
with its defaulted third argument `z = 0`. -/
def mk2 (x y : ℝ) : Vector3 := mk3 x y 0

/-- `Vector3::length()`: computes `x²+y²+z²`, takes the square root
only when that squared length is not `fpequal` to one, then snaps the
result to zero when it is `≤ EPS`. -/
def length (v : Vector3) : ℝ :=
  let result := v.x * v.x + v.y * v.y + v.z * v.z
  let result := if ¬ fpequal result 1 then Real.sqrt result else result
  if result ≤ EPS then 0 else result

/-- `Vector3::normalize()`: if the (snapped) length is zero the vector
becomes `{0,0,0,1}`; else if the length is not `fpequal` to one, each
of x,y,z is divided by the length and w is reset to one; otherwise the
vector is left untouched.  The C++ member mutates the receiver and
returns a reference to it; the embedding returns the updated value. -/
def normalize (v : Vector3) : Vector3 :=
  let len := length v
  if len = 0 then ⟨0, 0, 0, 1⟩
  else if ¬ fpequal len 1 then ⟨v.x / len, v.y / len, v.z / len, 1⟩
  else v

end Vector3

/-- `dot(a, b)`: `a.X()*b.X() + a.Y()*b.Y() + a.Z()*b.Z()`. -/
def dot (a b : Vector3) : ℝ := a.x * b.x + a.y * b.y + a.z * b.z

/-- `cross(a, b)`: the standard 3D cross product, built with the
three-argument constructor (so w = 1). -/
def cross (a b : Vector3) : Vector3 :=
  Vector3.mk3 (a.y * b.z - a.z * b.y) (a.z * b.x - a.x * b.z) (a.x * b.y - a.y * b.x)

/-- `operator+` on vectors (also the point+vector overloads):
component-wise on x,y,z, with w reset to 1 by the constructor. -/
def add (a b : Vector3) : Vector3 :=
  Vector3.mk3 (a.x + b.x) (a.y + b.y) (a.z + b.z)

/-- `operator-` on vectors (also the point−point overload):
component-wise on x,y,z, with w reset to 1 by the constructor. -/
def sub (a b : Vector3) : Vector3 :=
  Vector3.mk3 (a.x - b.x) (a.y - b.y) (a.z - b.z)

/-- `midpoint(a, b)`: component-wise average `(a+b)/2` of x,y,z, with
w reset to 1 by the constructor.  The repository has this definition
both for `Point3` operands and for `Vector3` operands; the arithmetic
is identical. -/
def midpoint (a b : Vector3) : Vector3 :=
  Vector3.mk3 ((a.x + b.x) / 2) ((a.y + b.y) / 2) ((a.z + b.z) / 2)

/-- The 4×4 homogeneous transformation matrix `Matrix3` (storage
`m_m[4][4]`, field `mRC` = `m_m[R][C]`). -/
@[ext]
structure Matrix3 where
  m00 : ℝ
  m01 : ℝ
  m02 : ℝ
  m03 : ℝ
  m10 : ℝ
  m11 : ℝ
  m12 : ℝ
  m13 : ℝ
  m20 : ℝ
  m21 : ℝ
  m22 : ℝ
  m23 : ℝ
  m30 : ℝ
  m31 : ℝ
  m32 : ℝ
  m33 : ℝ

namespace Matrix3

/-- The default constructor `Matrix3()`: the identity matrix. -/
def identity : Matrix3 :=
  ⟨1, 0, 0, 0,
   0, 1, 0, 0,
   0, 0, 1, 0,
   0, 0, 0, 1⟩

/-- `Matrix3::get(r, c)`: bounds-checked element access; indices
outside `[0,3]` raise `index_error`. -/
def get (m : Matrix3) (r c : Nat) : Except VMError ℝ :=
  if r > 3 ∨ c > 3 then Except.error VMError.index
  else Except.ok (match r, c with
    | 0, 0 => m.m00 | 0, 1 => m.m01 | 0, 2 => m.m02 | 0, _ => m.m03
    | 1, 0 => m.m10 | 1, 1 => m.m11 | 1, 2 => m.m12 | 1, _ => m.m13
    | 2, 0 => m.m20 | 2, 1 => m.m21 | 2, 2 => m.m22 | 2, _ => m.m23
    | _, 0 => m.m30 | _, 1 => m.m31 | _, 2 => m.m32 | _, _ => m.m33)

/-- Factory `Matrix3::translation(dx, dy, dz)`: the identity with the
fourth-column entries of the first three rows set to dx, dy, dz. -/
def translation (dx dy dz : ℝ) : Matrix3 :=
  { identity with m03 := dx, m13 := dy, m23 := dz }

/-- Factory `Matrix3::scale(sx, sy, sz)`: the identity with the first
three diagonal entries replaced by sx, sy, sz. -/
def scale (sx sy sz : ℝ) : Matrix3 :=
  { identity with m00 := sx, m11 := sy, m22 := sz }

/-- Factory `Matrix3::rotateX(theta)`. -/
def rotateX (theta : ℝ) : Matrix3 :=
  { identity with m11 := Real.cos theta, m22 := Real.cos theta,
                  m12 := -Real.sin theta, m21 := Real.sin theta }

/-- Factory `Matrix3::rotateY(theta)`. -/
def rotateY (theta : ℝ) : Matrix3 :=
  { identity with m00 := Real.cos theta, m22 := Real.cos theta,
                  m02 := Real.sin theta, m20 := -Real.sin theta }

/-- Factory `Matrix3::rotateZ(theta)`. -/
def rotateZ (theta : ℝ) : Matrix3 :=
  { identity with m00 := Real.cos theta, m11 := Real.cos theta,
                  m01 := -Real.sin theta, m10 := Real.sin theta }

end Matrix3

/-- `operator*(Matrix3, Matrix3)`: the row-by-column 4×4 product
(`r[j] = Σ_k a[i][k]·b[k][j]`, unrolled as in the source). -/
def matmul (a b : Matrix3) : Matrix3 :=
  ⟨a.m00 * b.m00 + a.m01 * b.m10 + a.m02 * b.m20 + a.m03 * b.m30,
   a.m00 * b.m01 + a.m01 * b.m11 + a.m02 * b.m21 + a.m03 * b.m31,
   a.m00 * b.m02 + a.m01 * b.m12 + a.m02 * b.m22 + a.m03 * b.m32,
   a.m00 * b.m03 + a.m01 * b.m13 + a.m02 * b.m23 + a.m03 * b.m33,
   a.m10 * b.m00 + a.m11 * b.m10 + a.m12 * b.m20 + a.m13 * b.m30,
   a.m10 * b.m01 + a.m11 * b.m11 + a.m12 * b.m21 + a.m13 * b.m31,
   a.m10 * b.m02 + a.m11 * b.m12 + a.m12 * b.m22 + a.m13 * b.m32,
   a.m10 * b.m03 + a.m11 * b.m13 + a.m12 * b.m23 + a.m13 * b.m33,
   a.m20 * b.m00 + a.m21 * b.m10 + a.m22 * b.m20 + a.m23 * b.m30,
   a.m20 * b.m01 + a.m21 * b.m11 + a.m22 * b.m21 + a.m23 * b.m31,
   a.m20 * b.m02 + a.m21 * b.m12 + a.m22 * b.m22 + a.m23 * b.m32,
   a.m20 * b.m03 + a.m21 * b.m13 + a.m22 * b.m23 + a.m23 * b.m33,
   a.m30 * b.m00 + a.m31 * b.m10 + a.m32 * b.m20 + a.m33 * b.m30,
   a.m30 * b.m01 + a.m31 * b.m11 + a.m32 * b.m21 + a.m33 * b.m31,
   a.m30 * b.m02 + a.m31 * b.m12 + a.m32 * b.m22 + a.m33 * b.m32,
   a.m30 * b.m03 + a.m31 * b.m13 + a.m32 * b.m23 + a.m33 * b.m33⟩

/-- `operator*(Vector3, Matrix3)` — `vm_mult`, the row-vector
convention: `r[j] = Σ_i v[i]·m[i][j]`.  Note that all four stored
components of the operand, w included, feed the result. -/
def vm_mult (v : Vector3) (m : Matrix3) : Vector3 :=
  ⟨v.x * m.m00 + v.y * m.m10 + v.z * m.m20 + v.w * m.m30,
   v.x * m.m01 + v.y * m.m11 + v.z * m.m21 + v.w * m.m31,
   v.x * m.m02 + v.y * m.m12 + v.z * m.m22 + v.w * m.m32,
   v.x * m.m03 + v.y * m.m13 + v.z * m.m23 + v.w * m.m33⟩

/-- `operator*(Matrix3, Vector3)` — `mv_mult`, the column-vector
convention: `r[i] = Σ_j m[i][j]·v[j]`. -/
def mv_mult (m : Matrix3) (v : Vector3) : Vector3 :=
  ⟨v.x * m.m00 + v.y * m.m01 + v.z * m.m02 + v.w * m.m03,
   v.x * m.m10 + v.y * m.m11 + v.z * m.m12 + v.w * m.m13,
   v.x * m.m20 + v.y * m.m21 + v.z * m.m22 + v.w * m.m23,
   v.x * m.m30 + v.y * m.m31 + v.z * m.m32 + v.w * m.m33⟩

/-- The raw perpendicular-bisector direction of `circle3pts`:
`Vec3 middir {dir.Y(), -dir.X(), 0.0}` (built before normalization). -/
def perpRaw (d : Vector3) : Vector3 := Vector3.mk3 d.y (-d.x) 0

/-- The implicit-line coefficients of `circle3pts`:
`{-dir.Y(), dir.X(), mid.X()*dir.Y() - mid.Y()*dir.X()}` for a
bisector through `mid` with (normalized) direction `dir`. -/
def lineEqn (mid dir : Vector3) : Vector3 :=
  Vector3.mk3 (-dir.y) dir.x (mid.x * dir.y - mid.y * dir.x)

/-- The Cramer-rule determinant of `circle3pts`:
`d = L1.X()*L2.Y() - L2.X()*L1.Y()`. -/
def cramerD (L1 L2 : Vector3) : ℝ := L1.x * L2.y - L2.x * L1.y

/-- The determinant `d` that `circle3pts a b c` computes and divides
by, as a function of the three input points. -/
def circleDet (a b c : Vector3) : ℝ :=
  cramerD
    (lineEqn (midpoint a b) (Vector3.normalize (perpRaw (sub b a))))
    (lineEqn (midpoint b c) (Vector3.normalize (perpRaw (sub c b))))

/-- `circle3pts(a, b, c)`: computes the center of the circle through
three locations in the X,Y plane.  Throws `degenerate_error` when the
cross product of the two segment directions has (snapped) length
`fpequal` to zero; otherwise intersects the two perpendicular
bisectors via Cramer's rule and returns `{x, y, 0.0}`. -/
def circle3pts (a b c : Vector3) : Except VMError Vector3 :=
  let dirab := sub b a
  let dirbc := sub c b
  let tmp := cross dirab dirbc
  if fpequal (Vector3.length tmp) 0 then Except.error VMError.degenerate
  else
    let midab := midpoint a b
    let midbc := midpoint b c
    let midabdir := Vector3.normalize (perpRaw dirab)
    let midbcdir := Vector3.normalize (perpRaw dirbc)
    let L1 := lineEqn midab midabdir
    let L2 := lineEqn midbc midbcdir
    let d := cramerD L1 L2
    let x := (L1.y * L2.z - L2.y * L1.z) / d
    let y := (L2.x * L1.z - L1.x * L2.z) / d
    Except.ok (Vector3.mk3 x y 0)

/-- Squared Euclidean distance between the stored locations of two
4-component values; used to state that a circle center is equidistant
from the three input points. -/
def sqDist (p q : Vector3) : ℝ :=
  (p.x - q.x) ^ 2 + (p.y - q.y) ^ 2 + (p.z - q.z) ^ 2

/-- The spec's description of `Vector3::length()`, amended: `sqrt` of
the squared length, except that when the squared length is `fpequal`
to one the square root is skipped (the squared length itself is
returned), and a computed root `≤ EPS` snaps to zero. -/
def lengthSpec (v : Vector3) : ℝ :=
  let sq := v.x * v.x + v.y * v.y + v.z * v.z
  if fpequal sq 1 then sq
  else if Real.sqrt sq ≤ EPS then 0
  else Real.sqrt sq

/-! ### Basic facts about the tolerance and `length` -/

lemma EPS_pos : (0 : ℝ) < EPS := by norm_num [EPS]

lemma fpequal_self (a : ℝ) : fpequal a a := by
  simp [fpequal, EPS_pos]

lemma not_fpequal_of_one_le {a b : ℝ} (h : 1 ≤ |a - b|) : ¬ fpequal a b := by
  intro hc
  have := lt_of_le_of_lt h hc
  norm_num [EPS] at this

/-- `length` either snaps to zero or exceeds the epsilon threshold. -/
lemma length_dichotomy (v : Vector3) :
    Vector3.length v = 0 ∨ EPS < Vector3.length v := by
  simp only [Vector3.length]
  by_cases h : (if ¬ fpequal (v.x * v.x + v.y * v.y + v.z * v.z) 1
      then Real.sqrt (v.x * v.x + v.y * v.y + v.z * v.z)
      else v.x * v.x + v.y * v.y + v.z * v.z) ≤ EPS
  · rw [if_pos h]; exact Or.inl rfl
  · rw [if_neg h]; exact Or.inr (lt_of_not_le h)

lemma length_pos_of_ne_zero {v : Vector3} (h : Vector3.length v ≠ 0) :
    0 < Vector3.length v := by
  rcases length_dichotomy v with h0 | h1
  · exact absurd h0 h
  · exact lt_trans EPS_pos h1

/-- The length of the zero direction is (snapped to) zero. -/
lemma length_mk3_zero : Vector3.length (Vector3.mk3 0 0 0) = 0 := by
  have h1 : ¬ fpequal ((0:ℝ) * 0 + 0 * 0 + 0 * 0) 1 := by
    apply not_fpequal_of_one_le; norm_num
  simp only [Vector3.length, Vector3.mk3]
  rw [if_pos h1]
  norm_num [EPS]

/-- Evaluation of `length` when the square root is taken and no
snapping occurs. -/
lemma length_eq_sqrt (v : Vector3)
    (h1 : ¬ fpequal (v.x * v.x + v.y * v.y + v.z * v.z) 1)
    (h2 : ¬ Real.sqrt (v.x * v.x + v.y * v.y + v.z * v.z) ≤ EPS) :
    Vector3.length v = Real.sqrt (v.x * v.x + v.y * v.y + v.z * v.z) := by
  simp only [Vector3.length]
  rw [if_pos h1, if_neg h2]

/-- `normalize` on a vector of nonzero (snapped) length and w = 1
rescales the stored components by a positive factor (the factor is one
when the length is already approximately one). -/
lemma normalize_scale (v : Vector3) (hw : v.w = 1)
    (h : Vector3.length v ≠ 0) :
    ∃ k : ℝ, 0 < k ∧
      Vector3.normalize v = ⟨k * v.x, k * v.y, k * v.z, 1⟩ := by
  have hpos : 0 < Vector3.length v := length_pos_of_ne_zero h
  simp only [Vector3.normalize]
  rw [if_neg h]
  by_cases h1 : fpequal (Vector3.length v) 1
  · rw [if_neg (not_not_intro h1)]
    exact ⟨1, one_pos, by ext <;> simp [hw]⟩
  · rw [if_pos h1]
    refine ⟨(Vector3.length v)⁻¹, inv_pos.mpr hpos, ?_⟩
    ext <;> simp [div_eq_mul_inv, mul_comm]

/-! ### C5: the two special cases of `length` -/

/-- C5 counterexample: on the vector (1, 1/2000, 0) the squared length
1 + 1/4000000 is within 1e-6 of 1, and `length` returns that squared
length itself, not 1 as the claim states. -/
theorem length_near_one_counterexample :
    Vector3.length ⟨1, 1/2000, 0, 1⟩ = 1 + 1/4000000 ∧
    (1 + 1/4000000 : ℝ) ≠ 1 := by
  constructor
  · have hsq : (1:ℝ) * 1 + 1/2000 * (1/2000) + 0 * 0 = 1 + 1/4000000 := by
      norm_num
    have h1 : fpequal ((1:ℝ) * 1 + 1/2000 * (1/2000) + 0 * 0) 1 := by
      rw [hsq]; simp only [fpequal, EPS]
      rw [abs_of_nonneg (by norm_num)]
      norm_num
    simp only [Vector3.length]
    rw [if_neg (not_not_intro h1), hsq, if_neg (by norm_num [EPS])]
  · norm_num

/-- C5 (amended): `length` returns the square root of x²+y²+z², except
that when the squared length is approximately 1 (within 1e-6) the
square root is skipped and the squared length itself is returned, and
a computed result ≤ 1e-6 is snapped to exactly 0. -/
theorem length_matches_spec (v : Vector3) :
    Vector3.length v = lengthSpec v := by
  simp only [Vector3.length, lengthSpec]
  by_cases h : fpequal (v.x * v.x + v.y * v.y + v.z * v.z) 1
  · rw [if_neg (not_not_intro h), if_pos h]
    have hgt : EPS < v.x * v.x + v.y * v.y + v.z * v.z := by
      have hlow : 1 - EPS < v.x * v.x + v.y * v.y + v.z * v.z := by
        have := abs_lt.mp h
        linarith [this.1]
      have : EPS < 1 - EPS := by norm_num [EPS]
      linarith
    rw [if_neg (not_le.mpr hgt)]
  · rw [if_pos h, if_neg h]

/-! ### C6 and C10: `normalize` on zero-length and unit-length input -/

/-- C6: if `length` (with its snapping) returns zero, `normalize` sets
the vector to exactly (0,0,0) with w = 1 — the zero-length branch
performs no division, and the C++ member returns the (updated)
receiver so calls can be chained. -/
theorem normalize_zero_length (v : Vector3) (h : Vector3.length v = 0) :
    Vector3.normalize v = ⟨0, 0, 0, 1⟩ := by
  simp only [Vector3.normalize]
  rw [if_pos h]

/-- C6 witness: the zero vector has (snapped) zero length, and
normalizing it yields the zero vector. -/
theorem normalize_zero_length_witness :
    Vector3.length ⟨0, 0, 0, 1⟩ = 0 ∧
    Vector3.normalize ⟨0, 0, 0, 1⟩ = ⟨0, 0, 0, 1⟩ := by
  have h : Vector3.length ⟨0, 0, 0, 1⟩ = 0 := length_mk3_zero
  exact ⟨h, normalize_zero_length _ h⟩

/-- C10: when `length v` is within 1e-6 of 1, `normalize` leaves all
four stored components of `v` exactly unchanged (in particular w is
not rewritten), and a second application changes nothing either. -/
theorem normalize_unit_exact_noop (v : Vector3)
    (h : fpequal (Vector3.length v) 1) :
    Vector3.normalize v = v ∧
    Vector3.normalize (Vector3.normalize v) = Vector3.normalize v := by
  have hne : Vector3.length v ≠ 0 := by
    intro h0
    rw [h0] at h
    exact not_fpequal_of_one_le (by norm_num) h
  have h1 : Vector3.normalize v = v := by
    simp only [Vector3.normalize]
    rw [if_neg hne, if_neg (not_not_intro h)]
  refine ⟨h1, ?_⟩
  rw [h1, h1]

/-- C10 witness: the unit X vector has length exactly 1, so it is
within tolerance of 1, and `normalize` leaves it exactly unchanged. -/
theorem normalize_unit_exact_noop_witness :
    fpequal (Vector3.length ⟨1, 0, 0, 1⟩) 1 ∧
    Vector3.normalize ⟨1, 0, 0, 1⟩ = ⟨1, 0, 0, 1⟩ := by
  have hlen : Vector3.length ⟨1, 0, 0, 1⟩ = 1 := by
    have h1 : fpequal ((1:ℝ) * 1 + 0 * 0 + 0 * 0) 1 := by
      norm_num [fpequal, EPS]
    simp only [Vector3.length]
    rw [if_neg (not_not_intro h1)]
    norm_num [EPS]
  have h : fpequal (Vector3.length ⟨1, 0, 0, 1⟩) 1 := by
    rw [hlen]; exact fpequal_self 1
  exact ⟨h, (normalize_unit_exact_noop _ h).1⟩

/-! ### C4: the w = 1 invariant -/

/-- C4 counterexample: multiplying the row vector (1,0,0,1) by the
translation matrix for (1,0,0) yields w = 1·1 + 1·1 = 2, so the w
component is not 1 for arbitrary matrices. -/
theorem w_not_one_for_translation_row_mult :
    (vm_mult ⟨1, 0, 0, 1⟩ (Matrix3.translation 1 0 0)).w = 2 ∧
    (2 : ℝ) ≠ 1 := by
  constructor
  · simp [vm_mult, Matrix3.translation, Matrix3.identity]
    norm_num
  · norm_num

/-- C4 (amended): every construction (0, 2 or 3 arguments), addition,
subtraction, cross product, midpoint, and normalize (on a w = 1
operand) produce w = 1; the matrix products `M*v` and `v*M` preserve
w = 1 exactly when the matrix's fourth row (for `M*v`) respectively
fourth column (for `v*M`) is (0,0,0,1) — true of the identity and all
rotation and scale factory matrices, but not of arbitrary matrices.
Copy and assignment are the identity on values and trivially preserve
all components. -/
theorem w_component_invariant (x y z : ℝ) (a b v : Vector3) (M N : Matrix3)
    (hv : v.w = 1)
    (hN0 : N.m30 = 0) (hN1 : N.m31 = 0) (hN2 : N.m32 = 0) (hN3 : N.m33 = 1)
    (hM0 : M.m03 = 0) (hM1 : M.m13 = 0) (hM2 : M.m23 = 0) (hM3 : M.m33 = 1) :
    Vector3.mk0.w = 1 ∧ (Vector3.mk2 x y).w = 1 ∧ (Vector3.mk3 x y z).w = 1 ∧
    (add a b).w = 1 ∧ (sub a b).w = 1 ∧ (cross a b).w = 1 ∧
    (midpoint a b).w = 1 ∧ (Vector3.normalize v).w = 1 ∧
    (mv_mult N v).w = 1 ∧ (vm_mult v M).w = 1 := by
  refine ⟨rfl, rfl, rfl, rfl, rfl, rfl, rfl, ?_, ?_, ?_⟩
  · simp only [Vector3.normalize]
    split_ifs <;> simp [hv]
  · simp [mv_mult, hN0, hN1, hN2, hN3, hv]
  · simp [vm_mult, hM0, hM1, hM2, hM3, hv]

/-- C4 witness: instantiation of the w-invariant at concrete values
with the identity matrix on both sides. -/
theorem w_component_invariant_witness :
    (1 : ℝ) = 1 ∧ Matrix3.identity.m30 = 0 ∧ Matrix3.identity.m03 = 0 ∧
    ((Vector3.mk0.w = 1) ∧ ((Vector3.mk2 2 3).w = 1) ∧
     ((Vector3.mk3 2 3 4).w = 1) ∧
     ((add ⟨1, 2, 3, 1⟩ ⟨4, 5, 6, 1⟩).w = 1) ∧
     ((sub ⟨1, 2, 3, 1⟩ ⟨4, 5, 6, 1⟩).w = 1) ∧
     ((cross ⟨1, 2, 3, 1⟩ ⟨4, 5, 6, 1⟩).w = 1) ∧
     ((midpoint ⟨1, 2, 3, 1⟩ ⟨4, 5, 6, 1⟩).w = 1) ∧
     ((Vector3.normalize ⟨1, 0, 0, 1⟩).w = 1) ∧
     ((mv_mult Matrix3.identity ⟨1, 0, 0, 1⟩).w = 1) ∧
     ((vm_mult ⟨1, 0, 0, 1⟩ Matrix3.identity).w = 1)) :=
  ⟨rfl, rfl, rfl,
   w_component_invariant 2 3 4 ⟨1, 2, 3, 1⟩ ⟨4, 5, 6, 1⟩ ⟨1, 0, 0, 1⟩
     Matrix3.identity Matrix3.identity rfl rfl rfl rfl rfl rfl rfl rfl rfl⟩

/-! ### C7: the identity matrix -/

/-- C7: the default-constructed matrix is the identity (1 on the
diagonal, 0 elsewhere, as read back through the bounds-checked
accessor), and it is a two-sided multiplicative identity for
matrix-matrix, row-vector-matrix, and matrix-column-vector products. -/
theorem identity_matrix_properties :
    (∀ r c : Fin 4, Matrix3.identity.get r.val c.val
        = Except.ok (if r = c then 1 else 0)) ∧
    (∀ M : Matrix3, matmul Matrix3.identity M = M) ∧
    (∀ M : Matrix3, matmul M Matrix3.identity = M) ∧
    (∀ v : Vector3, vm_mult v Matrix3.identity = v) ∧
    (∀ v : Vector3, mv_mult Matrix3.identity v = v) := by
  refine ⟨?_, ?_, ?_, ?_, ?_⟩
  · intro r c
    fin_cases r <;> fin_cases c <;>
      simp [Matrix3.get, Matrix3.identity]
  · intro M
    ext <;> simp [matmul, Matrix3.identity]
  · intro M
    ext <;> simp [matmul, Matrix3.identity]
  · intro v
    ext <;> simp [vm_mult, Matrix3.identity]
  · intro v
    ext <;> simp [mv_mult, Matrix3.identity]

/-! ### C8: rotateZ(π/2) distinguishes the two multiplication orders -/

/-- C8: for M = rotateZ(π/2) and the unit X vector (1,0,0,1), the
column convention `M*v` yields (0,1,0,1) and the row convention `v*M`
yields (0,−1,0,1) — exactly, in real arithmetic, hence within any
positive tolerance — and the two results differ. -/
theorem rotateZ_row_column_differ :
    mv_mult (Matrix3.rotateZ (Real.pi / 2)) (Vector3.mk3 1 0 0)
      = ⟨0, 1, 0, 1⟩ ∧
    vm_mult (Vector3.mk3 1 0 0) (Matrix3.rotateZ (Real.pi / 2))
      = ⟨0, -1, 0, 1⟩ ∧
    mv_mult (Matrix3.rotateZ (Real.pi / 2)) (Vector3.mk3 1 0 0)
      ≠ vm_mult (Vector3.mk3 1 0 0) (Matrix3.rotateZ (Real.pi / 2)) := by
  have hmv : mv_mult (Matrix3.rotateZ (Real.pi / 2)) (Vector3.mk3 1 0 0)
      = ⟨0, 1, 0, 1⟩ := by
    ext <;>
      simp [mv_mult, Matrix3.rotateZ, Matrix3.identity, Vector3.mk3,
        Real.cos_pi_div_two, Real.sin_pi_div_two]
  have hvm : vm_mult (Vector3.mk3 1 0 0) (Matrix3.rotateZ (Real.pi / 2))
      = ⟨0, -1, 0, 1⟩ := by
    ext <;>
      simp [vm_mult, Matrix3.rotateZ, Matrix3.identity, Vector3.mk3,
        Real.cos_pi_div_two, Real.sin_pi_div_two]
  refine ⟨hmv, hvm, ?_⟩
  rw [hmv, hvm]
  intro hcontra
  have := congrArg Vector3.y hcontra
  norm_num at this

/-! ### C9: dot, cross, addition and midpoint never read w -/

/-- C9: replacing the w components of both operands by arbitrary
values leaves `dot`, `cross`, `add` and `midpoint` unchanged, and the
vector-valued results always carry w = 1 regardless of the operands'
w. -/
theorem ops_ignore_w (a b a' b' : Vector3)
    (hax : a.x = a'.x) (hay : a.y = a'.y) (haz : a.z = a'.z)
    (hbx : b.x = b'.x) (hby : b.y = b'.y) (hbz : b.z = b'.z) :
    dot a b = dot a' b' ∧ cross a b = cross a' b' ∧
    add a b = add a' b' ∧ midpoint a b = midpoint a' b' ∧
    (cross a b).w = 1 ∧ (add a b).w = 1 ∧ (midpoint a b).w = 1 := by
  refine ⟨?_, ?_, ?_, ?_, rfl, rfl, rfl⟩ <;>
    simp [dot, cross, add, midpoint, Vector3.mk3,
      hax, hay, haz, hbx, hby, hbz]

/-- C9 witness: two pairs of operands agreeing on x, y, z but with
different w components give identical results. -/
theorem ops_ignore_w_witness :
    dot ⟨1, 2, 3, 1⟩ ⟨4, 5, 6, 1⟩ = dot ⟨1, 2, 3, 5⟩ ⟨4, 5, 6, -2⟩ ∧
    cross ⟨1, 2, 3, 1⟩ ⟨4, 5, 6, 1⟩ = cross ⟨1, 2, 3, 5⟩ ⟨4, 5, 6, -2⟩ ∧
    add ⟨1, 2, 3, 1⟩ ⟨4, 5, 6, 1⟩ = add ⟨1, 2, 3, 5⟩ ⟨4, 5, 6, -2⟩ ∧
    midpoint ⟨1, 2, 3, 1⟩ ⟨4, 5, 6, 1⟩ = midpoint ⟨1, 2, 3, 5⟩ ⟨4, 5, 6, -2⟩ ∧
    (cross ⟨1, 2, 3, 1⟩ ⟨4, 5, 6, 1⟩).w = 1 ∧
    (add ⟨1, 2, 3, 1⟩ ⟨4, 5, 6, 1⟩).w = 1 ∧
    (midpoint ⟨1, 2, 3, 1⟩ ⟨4, 5, 6, 1⟩).w = 1 :=
  ops_ignore_w ⟨1, 2, 3, 1⟩ ⟨4, 5, 6, 1⟩ ⟨1, 2, 3, 5⟩ ⟨4, 5, 6, -2⟩
    rfl rfl rfl rfl rfl rfl

/-! ### Concrete evaluation helpers -/

lemma not_fpequal_ge {a b : ℝ} (h : EPS ≤ a - b) : ¬ fpequal a b := by
  intro hc
  exact absurd ((abs_lt.mp hc).2) (not_lt.mpr h)

lemma not_fpequal_le {a b : ℝ} (h : EPS ≤ b - a) : ¬ fpequal a b := by
  intro hc
  have h1 := (abs_lt.mp hc).1
  have : b - a < EPS := by linarith
  exact absurd this (not_lt.mpr h)

lemma sqrt_eval (a b : ℝ) (hb : 0 ≤ b) (h : b ^ 2 = a) : Real.sqrt a = b := by
  rw [← h, Real.sqrt_sq hb]

/-- Evaluation of `length` on a constructed vector whose square root
branch is taken and does not snap: the result is the exact root `r`. -/
lemma length_mk3_val (x y z sq r : ℝ) (hsq : x * x + y * y + z * z = sq)
    (h1 : ¬ fpequal sq 1) (hr : 0 ≤ r) (hr2 : r ^ 2 = sq) (h2 : ¬ r ≤ EPS) :
    Vector3.length (Vector3.mk3 x y z) = r := by
  have hs : Real.sqrt sq = r := sqrt_eval sq r hr hr2
  simp only [Vector3.length, Vector3.mk3]
  rw [hsq, if_pos h1, hs, if_neg h2]

/-- Evaluation of `length` on a constructed vector whose square root
is at most epsilon: the result snaps to zero. -/
lemma length_mk3_snap (x y z sq r : ℝ) (hsq : x * x + y * y + z * z = sq)
    (h1 : ¬ fpequal sq 1) (hr : 0 ≤ r) (hr2 : r ^ 2 = sq) (h2 : r ≤ EPS) :
    Vector3.length (Vector3.mk3 x y z) = 0 := by
  have hs : Real.sqrt sq = r := sqrt_eval sq r hr hr2
  simp only [Vector3.length, Vector3.mk3]
  rw [hsq, if_pos h1, hs, if_pos h2]

/-- Non-claim helper: the zero-length branch of `normalize`. -/
lemma normalize_eq_zero_vec (v : Vector3) (h : Vector3.length v = 0) :
    Vector3.normalize v = ⟨0, 0, 0, 1⟩ := by
  simp only [Vector3.normalize]
  rw [if_pos h]

/-! ### C2: error behavior of circle3pts -/

/-- C2: `circle3pts` fails with the degenerate error — a kind distinct
from the index error — exactly when the cross product of the segment
directions b−a and c−b has (snapped) length within tolerance of zero
(which covers colinear and coincident points, in particular three
identical points); on all other inputs it completes normally with a
center value and raises no error. -/
theorem circle3pts_degenerate_iff (a b c : Vector3) :
    (circle3pts a b c = Except.error VMError.degenerate ↔
      fpequal (Vector3.length (cross (sub b a) (sub c b))) 0) ∧
    ((∃ ctr, circle3pts a b c = Except.ok ctr) ↔
      ¬ fpequal (Vector3.length (cross (sub b a) (sub c b))) 0) ∧
    VMError.degenerate ≠ VMError.index ∧
    circle3pts Vector3.mk0 Vector3.mk0 Vector3.mk0 =
      Except.error VMError.degenerate := by
  have hzero : ∀ p : Vector3,
      cross (sub p p) (sub p p) = Vector3.mk3 0 0 0 := by
    intro p
    ext <;> simp [cross, sub, Vector3.mk3]
  refine ⟨?_, ?_, by decide, ?_⟩
  · by_cases h : fpequal (Vector3.length (cross (sub b a) (sub c b))) 0
    · simp only [circle3pts]
      rw [if_pos h]
      simp [h]
    · simp only [circle3pts]
      rw [if_neg h]
      simp [h]
  · by_cases h : fpequal (Vector3.length (cross (sub b a) (sub c b))) 0
    · simp only [circle3pts]
      rw [if_pos h]
      simp [h]
    · simp only [circle3pts]
      rw [if_neg h]
      simp [h]
  · simp only [circle3pts]
    rw [hzero, length_mk3_zero, if_pos (fpequal_self 0)]

/-! ### The geometry of the circle solver -/

/-- Normalizing the raw perpendicular direction of a segment direction
`d` yields a positive multiple of `(d.y, -d.x, 0)` whenever the
(snapped) length is nonzero. -/
lemma normalize_perp_scale (d : Vector3)
    (h : Vector3.length (perpRaw d) ≠ 0) :
    ∃ k : ℝ, 0 < k ∧
      Vector3.normalize (perpRaw d) = ⟨k * d.y, k * (-(d.x)), k * 0, 1⟩ := by
  obtain ⟨k, hk, hn⟩ := normalize_scale (perpRaw d) rfl h
  refine ⟨k, hk, ?_⟩
  rw [hn]
  ext <;> simp [perpRaw, Vector3.mk3]

/-- The implicit-line coefficients produced from a midpoint `m` and a
scaled perpendicular direction. -/
lemma lineEqn_normalized (m d : Vector3) (k : ℝ)
    (hn : Vector3.normalize (perpRaw d) = ⟨k * d.y, k * (-(d.x)), k * 0, 1⟩) :
    lineEqn m (Vector3.normalize (perpRaw d)) =
      ⟨k * d.x, k * d.y, -(k * (m.x * d.x + m.y * d.y)), 1⟩ := by
  rw [hn]
  ext <;> (simp [lineEqn, Vector3.mk3]; try ring)

/-- For inputs lying in the X,Y plane, a passing colinearity check
forces the 2D cross term (the z component of the 3D cross product) to
be nonzero. -/
lemma cz_ne_zero (a b c : Vector3)
    (hza : a.z = 0) (hzb : b.z = 0) (hzc : c.z = 0)
    (hcol : ¬ fpequal (Vector3.length (cross (sub b a) (sub c b))) 0) :
    (b.x - a.x) * (c.y - b.y) - (b.y - a.y) * (c.x - b.x) ≠ 0 := by
  intro h
  apply hcol
  have hx : cross (sub b a) (sub c b) = Vector3.mk3 0 0 0 := by
    ext
    · simp [cross, sub, Vector3.mk3, hza, hzb, hzc]
    · simp [cross, sub, Vector3.mk3, hza, hzb, hzc]
    · simp only [cross, sub, Vector3.mk3]
      linear_combination h
    · rfl
  rw [hx, length_mk3_zero]
  exact fpequal_self 0

/-- Closed form of `circle3pts` on the non-degenerate path: when the
colinearity check passes, neither perpendicular direction snaps to
zero length, and the 2D cross term is nonzero, the solver returns the
intersection of the two perpendicular bisectors (the normalization
factors cancel out of Cramer's rule). -/
lemma circle3pts_eq_ok (a b c : Vector3)
    (hcol : ¬ fpequal (Vector3.length (cross (sub b a) (sub c b))) 0)
    (h1 : Vector3.length (perpRaw (sub b a)) ≠ 0)
    (h2 : Vector3.length (perpRaw (sub c b)) ≠ 0)
    (hcz : (b.x - a.x) * (c.y - b.y) - (b.y - a.y) * (c.x - b.x) ≠ 0) :
    circle3pts a b c = Except.ok (Vector3.mk3
      (((c.y - b.y) * ((a.x + b.x) / 2 * (b.x - a.x) + (a.y + b.y) / 2 * (b.y - a.y)) -
        (b.y - a.y) * ((b.x + c.x) / 2 * (c.x - b.x) + (b.y + c.y) / 2 * (c.y - b.y))) /
        ((b.x - a.x) * (c.y - b.y) - (b.y - a.y) * (c.x - b.x)))
      (((b.x - a.x) * ((b.x + c.x) / 2 * (c.x - b.x) + (b.y + c.y) / 2 * (c.y - b.y)) -
        (c.x - b.x) * ((a.x + b.x) / 2 * (b.x - a.x) + (a.y + b.y) / 2 * (b.y - a.y))) /
        ((b.x - a.x) * (c.y - b.y) - (b.y - a.y) * (c.x - b.x)))
      0) := by
  obtain ⟨k1, hk1, hn1⟩ := normalize_perp_scale (sub b a) h1
  obtain ⟨k2, hk2, hn2⟩ := normalize_perp_scale (sub c b) h2
  have hden : k1 * k2 *
      ((b.x - a.x) * (c.y - b.y) - (b.y - a.y) * (c.x - b.x)) ≠ 0 :=
    mul_ne_zero (mul_ne_zero (ne_of_gt hk1) (ne_of_gt hk2)) hcz
  have hD : cramerD
      ⟨k1 * (sub b a).x, k1 * (sub b a).y,
       -(k1 * ((midpoint a b).x * (sub b a).x + (midpoint a b).y * (sub b a).y)), 1⟩
      ⟨k2 * (sub c b).x, k2 * (sub c b).y,
       -(k2 * ((midpoint b c).x * (sub c b).x + (midpoint b c).y * (sub c b).y)), 1⟩
      = k1 * k2 * ((b.x - a.x) * (c.y - b.y) - (b.y - a.y) * (c.x - b.x)) := by
    simp [cramerD, sub, midpoint, Vector3.mk3]
    ring
  simp only [circle3pts]
  rw [if_neg hcol, lineEqn_normalized (midpoint a b) (sub b a) k1 hn1,
    lineEqn_normalized (midpoint b c) (sub c b) k2 hn2, hD]
  refine congrArg Except.ok ?_
  ext
  · simp only [sub, midpoint, Vector3.mk3]
    rw [div_eq_div_iff hden hcz]
    ring
  · simp only [sub, midpoint, Vector3.mk3]
    rw [div_eq_div_iff hden hcz]
    ring
  · rfl
  · rfl

/-! ### Concrete instances for the solver: the (1,1),(2,0),(3,1) demo
triangle of the tests, and a tiny non-colinear triangle on which the
perpendicular-direction length snaps to zero. -/

lemma demo_not_colinear :
    ¬ fpequal (Vector3.length (cross
        (sub (Vector3.mk3 2 0 0) (Vector3.mk3 1 1 0))
        (sub (Vector3.mk3 3 1 0) (Vector3.mk3 2 0 0)))) 0 := by
  have hcr : cross (sub (Vector3.mk3 2 0 0) (Vector3.mk3 1 1 0))
      (sub (Vector3.mk3 3 1 0) (Vector3.mk3 2 0 0)) = Vector3.mk3 0 0 2 := by
    ext <;> (simp [cross, sub, Vector3.mk3]; try norm_num)
  rw [hcr, length_mk3_val 0 0 2 4 2 (by norm_num)
    (not_fpequal_ge (by norm_num [EPS])) (by norm_num) (by norm_num)
    (by norm_num [EPS])]
  exact not_fpequal_ge (by norm_num [EPS])

lemma sqrt_two_ge_one : (1 : ℝ) ≤ Real.sqrt 2 := by
  rw [show (1 : ℝ) = Real.sqrt 1 from Real.sqrt_one.symm]
  exact Real.sqrt_le_sqrt (by norm_num)

lemma sqrt_two_not_snapped : ¬ Real.sqrt 2 ≤ EPS := by
  intro hc
  exact absurd (le_trans sqrt_two_ge_one hc) (by norm_num [EPS])

lemma demo_perp1_len :
    Vector3.length (perpRaw (sub (Vector3.mk3 2 0 0) (Vector3.mk3 1 1 0))) ≠ 0 := by
  have hp : perpRaw (sub (Vector3.mk3 2 0 0) (Vector3.mk3 1 1 0))
      = Vector3.mk3 (-1) (-1) 0 := by
    ext <;> (simp [perpRaw, sub, Vector3.mk3]; try norm_num)
  rw [hp, length_mk3_val (-1) (-1) 0 2 (Real.sqrt 2) (by norm_num)
    (not_fpequal_ge (by norm_num [EPS])) (Real.sqrt_nonneg 2)
    (Real.sq_sqrt (by norm_num)) sqrt_two_not_snapped]
  intro hc
  have h12 := sqrt_two_ge_one
  rw [hc] at h12
  exact absurd h12 (by norm_num)

lemma demo_perp2_len :
    Vector3.length (perpRaw (sub (Vector3.mk3 3 1 0) (Vector3.mk3 2 0 0))) ≠ 0 := by
  have hp : perpRaw (sub (Vector3.mk3 3 1 0) (Vector3.mk3 2 0 0))
      = Vector3.mk3 1 (-1) 0 := by
    ext <;> (simp [perpRaw, sub, Vector3.mk3]; try norm_num)
  rw [hp, length_mk3_val 1 (-1) 0 2 (Real.sqrt 2) (by norm_num)
    (not_fpequal_ge (by norm_num [EPS])) (Real.sqrt_nonneg 2)
    (Real.sq_sqrt (by norm_num)) sqrt_two_not_snapped]
  intro hc
  have h12 := sqrt_two_ge_one
  rw [hc] at h12
  exact absurd h12 (by norm_num)

lemma tiny_not_colinear :
    ¬ fpequal (Vector3.length (cross
        (sub (Vector3.mk3 0 1e-7 0) (Vector3.mk3 0 0 0))
        (sub (Vector3.mk3 100 1e-7 0) (Vector3.mk3 0 1e-7 0)))) 0 := by
  have hcr : cross (sub (Vector3.mk3 0 1e-7 0) (Vector3.mk3 0 0 0))
      (sub (Vector3.mk3 100 1e-7 0) (Vector3.mk3 0 1e-7 0))
      = Vector3.mk3 0 0 (-(1e-5)) := by
    ext <;> (simp [cross, sub, Vector3.mk3]; try norm_num)
  rw [hcr, length_mk3_val 0 0 (-(1e-5)) 1e-10 1e-5 (by norm_num)
    (not_fpequal_le (by norm_num [EPS])) (by norm_num) (by norm_num)
    (by norm_num [EPS])]
  exact not_fpequal_ge (by norm_num [EPS])

lemma tiny_normalize1 :
    Vector3.normalize (perpRaw (sub (Vector3.mk3 0 1e-7 0) (Vector3.mk3 0 0 0)))
      = ⟨0, 0, 0, 1⟩ := by
  have hp : perpRaw (sub (Vector3.mk3 0 1e-7 0) (Vector3.mk3 0 0 0))
      = Vector3.mk3 1e-7 0 0 := by
    ext <;> (simp [perpRaw, sub, Vector3.mk3]; try norm_num)
  rw [hp]
  exact normalize_eq_zero_vec _ (length_mk3_snap 1e-7 0 0 1e-14 1e-7
    (by norm_num) (not_fpequal_le (by norm_num [EPS])) (by norm_num)
    (by norm_num) (by norm_num [EPS]))

lemma tiny_normalize2 :
    Vector3.normalize (perpRaw (sub (Vector3.mk3 100 1e-7 0) (Vector3.mk3 0 1e-7 0)))
      = ⟨0, -1, 0, 1⟩ := by
  have hp : perpRaw (sub (Vector3.mk3 100 1e-7 0) (Vector3.mk3 0 1e-7 0))
      = Vector3.mk3 0 (-100) 0 := by
    ext <;> (simp [perpRaw, sub, Vector3.mk3]; try norm_num)
  have hlen : Vector3.length (Vector3.mk3 0 (-100) 0) = 100 :=
    length_mk3_val 0 (-100) 0 10000 100 (by norm_num)
      (not_fpequal_ge (by norm_num [EPS])) (by norm_num) (by norm_num)
      (by norm_num [EPS])
  rw [hp]
  simp only [Vector3.normalize]
  rw [hlen, if_neg (by norm_num : (100 : ℝ) ≠ 0),
    if_pos (not_fpequal_ge (by norm_num [EPS]) : ¬ fpequal (100 : ℝ) 1)]
  ext <;> (simp [Vector3.mk3]; try norm_num)

lemma tiny_circleDet :
    circleDet (Vector3.mk3 0 0 0) (Vector3.mk3 0 1e-7 0) (Vector3.mk3 100 1e-7 0)
      = 0 := by
  simp only [circleDet]
  rw [tiny_normalize1, tiny_normalize2]
  simp [cramerD, lineEqn, midpoint, Vector3.mk3]

lemma tiny_circle3pts :
    circle3pts (Vector3.mk3 0 0 0) (Vector3.mk3 0 1e-7 0) (Vector3.mk3 100 1e-7 0)
      = Except.ok (Vector3.mk3 0 0 0) := by
  simp only [circle3pts]
  rw [if_neg tiny_not_colinear, tiny_normalize1, tiny_normalize2]
  refine congrArg Except.ok ?_
  ext <;> simp [cramerD, lineEqn, midpoint, Vector3.mk3]

/-! ### C1: correctness of the circle center -/

/-- C1 counterexample: the points (0,0), (0,1e-7), (100,1e-7) lie in
the X,Y plane and are not colinear — the cross product check passes
with length 1e-5 — yet `circle3pts` returns (0,0,0), which is not
equidistant from the inputs (it coincides with the first point and is
100 away from the third): the tiny segment a→b makes the first
perpendicular-bisector direction normalize to zero, so the solver
divides by a zero determinant.  (Under IEEE arithmetic the same input
produces NaN; either way the result is not the circle center and no
error is raised.) -/
theorem circle3pts_not_center_counterexample :
    ¬ fpequal (Vector3.length (cross
        (sub (Vector3.mk3 0 1e-7 0) (Vector3.mk3 0 0 0))
        (sub (Vector3.mk3 100 1e-7 0) (Vector3.mk3 0 1e-7 0)))) 0 ∧
    circle3pts (Vector3.mk3 0 0 0) (Vector3.mk3 0 1e-7 0) (Vector3.mk3 100 1e-7 0)
      = Except.ok (Vector3.mk3 0 0 0) ∧
    sqDist (Vector3.mk3 0 0 0) (Vector3.mk3 0 0 0)
      ≠ sqDist (Vector3.mk3 0 0 0) (Vector3.mk3 100 1e-7 0) := by
  refine ⟨tiny_not_colinear, tiny_circle3pts, ?_⟩
  simp only [sqDist, Vector3.mk3]
  norm_num

/-- C1 (amended): for points in the X,Y plane that pass the
colinearity check and whose perpendicular-bisector directions do not
have their lengths snapped to zero, `circle3pts` returns a point in
the plane equidistant from all three inputs; in particular on
(1,1),(2,0),(3,1) it returns exactly (2,1). -/
theorem circle3pts_center :
    (∀ a b c : Vector3, a.z = 0 → b.z = 0 → c.z = 0 →
      ¬ fpequal (Vector3.length (cross (sub b a) (sub c b))) 0 →
      Vector3.length (perpRaw (sub b a)) ≠ 0 →
      Vector3.length (perpRaw (sub c b)) ≠ 0 →
      ∃ ctr, circle3pts a b c = Except.ok ctr ∧ ctr.z = 0 ∧
        sqDist ctr a = sqDist ctr b ∧ sqDist ctr b = sqDist ctr c) ∧
    circle3pts (Vector3.mk3 1 1 0) (Vector3.mk3 2 0 0) (Vector3.mk3 3 1 0)
      = Except.ok (Vector3.mk3 2 1 0) := by
  constructor
  · intro a b c hza hzb hzc hcol h1 h2
    have hcz := cz_ne_zero a b c hza hzb hzc hcol
    refine ⟨_, circle3pts_eq_ok a b c hcol h1 h2 hcz, rfl, ?_, ?_⟩
    · simp only [sqDist, Vector3.mk3, hza, hzb]
      field_simp
      ring
    · simp only [sqDist, Vector3.mk3, hzb, hzc]
      field_simp
      ring
  · have hcz : ((Vector3.mk3 2 0 0).x - (Vector3.mk3 1 1 0).x) *
        ((Vector3.mk3 3 1 0).y - (Vector3.mk3 2 0 0).y) -
        ((Vector3.mk3 2 0 0).y - (Vector3.mk3 1 1 0).y) *
        ((Vector3.mk3 3 1 0).x - (Vector3.mk3 2 0 0).x) ≠ 0 := by
      simp [Vector3.mk3]
      norm_num
    rw [circle3pts_eq_ok _ _ _ demo_not_colinear demo_perp1_len demo_perp2_len hcz]
    refine congrArg Except.ok ?_
    ext <;> simp [Vector3.mk3] <;> norm_num

/-- C1 witness: the amended theorem instantiated on the demo triangle
(1,1),(2,0),(3,1), whose hypotheses all hold. -/
theorem circle3pts_center_witness :
    (Vector3.mk3 1 1 0).z = 0 ∧ (Vector3.mk3 2 0 0).z = 0 ∧
    (Vector3.mk3 3 1 0).z = 0 ∧
    ¬ fpequal (Vector3.length (cross
        (sub (Vector3.mk3 2 0 0) (Vector3.mk3 1 1 0))
        (sub (Vector3.mk3 3 1 0) (Vector3.mk3 2 0 0)))) 0 ∧
    Vector3.length (perpRaw (sub (Vector3.mk3 2 0 0) (Vector3.mk3 1 1 0))) ≠ 0 ∧
    Vector3.length (perpRaw (sub (Vector3.mk3 3 1 0) (Vector3.mk3 2 0 0))) ≠ 0 ∧
    (∃ ctr, circle3pts (Vector3.mk3 1 1 0) (Vector3.mk3 2 0 0) (Vector3.mk3 3 1 0)
        = Except.ok ctr ∧ ctr.z = 0 ∧
      sqDist ctr (Vector3.mk3 1 1 0) = sqDist ctr (Vector3.mk3 2 0 0) ∧
      sqDist ctr (Vector3.mk3 2 0 0) = sqDist ctr (Vector3.mk3 3 1 0)) :=
  ⟨rfl, rfl, rfl, demo_not_colinear, demo_perp1_len, demo_perp2_len,
   circle3pts_center.1 (Vector3.mk3 1 1 0) (Vector3.mk3 2 0 0) (Vector3.mk3 3 1 0)
     rfl rfl rfl demo_not_colinear demo_perp1_len demo_perp2_len⟩

/-! ### C3: the Cramer determinant -/

/-- C3 counterexample: on the non-colinear points (0,0), (0,1e-7),
(100,1e-7) the upstream colinearity check passes, yet the Cramer
determinant d is exactly 0 — in particular approximately zero within
tolerance — and `circle3pts` does not treat this as a degenerate
failure: it performs the division anyway and returns a value. -/
theorem cramer_guard_counterexample :
    ¬ fpequal (Vector3.length (cross
        (sub (Vector3.mk3 0 1e-7 0) (Vector3.mk3 0 0 0))
        (sub (Vector3.mk3 100 1e-7 0) (Vector3.mk3 0 1e-7 0)))) 0 ∧
    fpequal (circleDet (Vector3.mk3 0 0 0) (Vector3.mk3 0 1e-7 0)
        (Vector3.mk3 100 1e-7 0)) 0 ∧
    circle3pts (Vector3.mk3 0 0 0) (Vector3.mk3 0 1e-7 0) (Vector3.mk3 100 1e-7 0)
      ≠ Except.error VMError.degenerate := by
  refine ⟨tiny_not_colinear, ?_, ?_⟩
  · rw [tiny_circleDet]
    exact fpequal_self 0
  · rw [tiny_circle3pts]
    intro hc
    exact Except.noConfusion hc

/-- C3 (amended): for points in the X,Y plane, when the upstream
colinearity check passes and neither perpendicular-bisector direction
has its length snapped to zero, the Cramer determinant d is nonzero
(exactly — it can still be approximately zero, and the code divides by
it unconditionally, with no defensive degeneracy check on d). -/
theorem circle_det_nonzero (a b c : Vector3)
    (hza : a.z = 0) (hzb : b.z = 0) (hzc : c.z = 0)
    (hcol : ¬ fpequal (Vector3.length (cross (sub b a) (sub c b))) 0)
    (h1 : Vector3.length (perpRaw (sub b a)) ≠ 0)
    (h2 : Vector3.length (perpRaw (sub c b)) ≠ 0) :
    circleDet a b c ≠ 0 := by
  have hcz := cz_ne_zero a b c hza hzb hzc hcol
  obtain ⟨k1, hk1, hn1⟩ := normalize_perp_scale (sub b a) h1
  obtain ⟨k2, hk2, hn2⟩ := normalize_perp_scale (sub c b) h2
  have hD : circleDet a b c
      = k1 * k2 * ((b.x - a.x) * (c.y - b.y) - (b.y - a.y) * (c.x - b.x)) := by
    simp only [circleDet]
    rw [lineEqn_normalized (midpoint a b) (sub b a) k1 hn1,
      lineEqn_normalized (midpoint b c) (sub c b) k2 hn2]
    simp [cramerD, sub, midpoint, Vector3.mk3]
    ring
  rw [hD]
  exact mul_ne_zero (mul_ne_zero (ne_of_gt hk1) (ne_of_gt hk2)) hcz

/-- C3 witness: the amended determinant theorem instantiated on the
demo triangle (1,1),(2,0),(3,1). -/
theorem circle_det_nonzero_witness :
    (Vector3.mk3 1 1 0).z = 0 ∧ (Vector3.mk3 2 0 0).z = 0 ∧
    (Vector3.mk3 3 1 0).z = 0 ∧
    ¬ fpequal (Vector3.length (cross
        (sub (Vector3.mk3 2 0 0) (Vector3.mk3 1 1 0))
        (sub (Vector3.mk3 3 1 0) (Vector3.mk3 2 0 0)))) 0 ∧
    Vector3.length (perpRaw (sub (Vector3.mk3 2 0 0) (Vector3.mk3 1 1 0))) ≠ 0 ∧
    Vector3.length (perpRaw (sub (Vector3.mk3 3 1 0) (Vector3.mk3 2 0 0))) ≠ 0 ∧
    circleDet (Vector3.mk3 1 1 0) (Vector3.mk3 2 0 0) (Vector3.mk3 3 1 0) ≠ 0 :=
  ⟨rfl, rfl, rfl, demo_not_colinear, demo_perp1_len, demo_perp2_len,
   circle_det_nonzero (Vector3.mk3 1 1 0) (Vector3.mk3 2 0 0) (Vector3.mk3 3 1 0)
     rfl rfl rfl demo_not_colinear demo_perp1_len demo_perp2_len⟩

end

end vecmath
